import Mathlib

/-!
Shallow embedding of the `ema-bot` repository (file `ema_bot.py`), centred on
the order-reconciliation logic of `EMATrailingBot.process_order`, the EMA
indicator `calculate_ema`, the quantization helpers
`BinanceClient.format_price` / `BinanceClient.format_quantity`, and the
tracked-order store `OrderManager`.

Conventions of the embedding:
* Python floats are modelled as exact rationals (`ℚ`); Python `//` on
  non-negative operands is `Int.floor` of the exact quotient, and
  `f-string` fixed-point formatting is round-half-to-even at the requested
  number of decimal digits (`pyRound`).
* The persisted `orders.json` array is a `List OrderRec` (`Store`); the
  `OrderManager` static methods become pure functions on it.
* One reconciliation pass (`process_order` for a single tracked order)
  is a function of the tracked-order record and an `Oracle` recording the
  outcome of each exchange interaction of that pass (EMA value returned,
  open-orders snapshot, cancel outcome, status-lookup answer, create
  outcome).  The pass returns the updated store, the ordered list of
  order-mutating exchange calls it issued, the notifications it sent and
  its return value.
* Python attribute lookup on `BinanceClient` instances is modelled by the
  literal sets of names bound by the class body and by `__init__`,
  because in the source `calculate_ema` (line 304) is dedented to module
  scope, which makes every method after it (lines 352-587) dead code
  nested inside its body: `BinanceClient` ends at `get_current_price`.
-/

namespace EmaBot

/-- Notification events sent via `send_telegram_message`, by kind. -/
inductive Notif where
  | fill
  | replaceSuccess
  | createSuccess
  | failUpdate
  | failCreate
  | procError
deriving DecidableEq

/-- Order-mutating exchange calls issued during a pass:
`cancel_order` with the Binance order id, and `create_order` with the
price argument (`ema_price` at both call sites). -/
inductive Call where
  | cancel (orderId : Int)
  | create (price : ℚ)
deriving DecidableEq

/-- Return value of `process_order`, one constructor per `return`
statement of the source. -/
inductive PassResult where
  | filled
  | cancelFailed
  | replaced
  | createFailedAfterCancel
  | noAction
  | created
  | createFailed
  | error
deriving DecidableEq

/-- Outcome of the `cancel_order` call: success, an exception whose text
contains "Unknown order" or "-2011", or any other exception. -/
inductive CancelRes where
  | ok
  | errUnknown
  | errOther
deriving DecidableEq

/-- One entry of the persisted `orders.json` array (the dict built in
`OrderManager.add_order`). -/
structure OrderRec where
  id : String
  symbol : String
  interval : String
  ema : Nat
  side : String
  quantity : ℚ
  binance_order_id : Option Int
  status : String
  created_at : String
  market_type : String
  leverage : Option Int
  margin_type : Option String
  position_side : Option String
  notified_error : Bool
deriving DecidableEq

/-- The persisted store: the `orders.json` array. -/
abbrev Store := List OrderRec

/-- OrderManager.update_order: walk the list, update the first record
with the given id (the source loop `break`s after the first match),
then save. -/
def update_order : Store → String → (OrderRec → OrderRec) → Store
  | [], _, _ => []
  | r :: rs, oid, f => if r.id == oid then f r :: rs else r :: update_order rs oid f

/-- OrderManager.set_notified. -/
def set_notified (store : Store) (oid : String) (b : Bool) : Store :=
  update_order store oid (fun r => { r with notified_error := b })

/-- OrderManager.update_binance_order_id. -/
def update_binance_order_id (store : Store) (oid : String) (v : Option Int) : Store :=
  update_order store oid (fun r => { r with binance_order_id := v })

/-- OrderManager.remove_order: keep every record whose id differs. -/
def remove_order (store : Store) (oid : String) : Store :=
  store.filter (fun r => r.id != oid)

/-- Supported EMA periods (`SUPPORTED_EMA`). -/
def SUPPORTED_EMA : List Nat := [21, 55, 100, 200]

/-- Market kinds (`MARKET_TYPES`). -/
def MARKET_TYPES : List String := ["spot", "futures"]

/-- The `INTERVAL_MAP` dict. -/
def INTERVAL_MAP : List (String × String) :=
  [("15m", "15m"), ("15min", "15m"), ("1h", "1h"), ("4h", "4h"),
   ("1d", "1d"), ("1D", "1d"), ("1w", "1w"), ("1W", "1w"), ("1M", "1M")]

/-- Python `str.upper()` on the ASCII range (symbols and sides in this
program are ASCII), written structurally on the character list. -/
def pyUpper (s : String) : String := String.mk (s.data.map Char.toUpper)

/-- Python `str.lower()` on the ASCII range. -/
def pyLower (s : String) : String := String.mk (s.data.map Char.toLower)

/-- Python `str.endswith`. -/
def pyEndsWith (s suff : String) : Bool := suff.data.isSuffixOf s.data

/-- Symbol normalization of `add_order`: upper-case, then append "USDT"
unless already a suffix. -/
def normSymbol (s : String) : String :=
  let u := pyUpper s
  if pyEndsWith u "USDT" then u else u ++ "USDT"

/-- Interval normalization of `add_order`:
`INTERVAL_MAP.get(interval.lower(), interval)` — the lookup key is the
lower-cased interval, the fallback is the original string. -/
def normalizeInterval (i : String) : String :=
  match INTERVAL_MAP.find? (fun p => p.1 == pyLower i) with
  | some p => p.2
  | none => i

/-- Arguments of `OrderManager.add_order` (without the implicit clock). -/
structure AddArgs where
  symbol : String
  interval : String
  ema : Nat
  side : String
  quantity : ℚ
  leverage : Option Int
  margin_type : Option String
  position_side : Option String
  market_type : String

/-- The order id derived in `add_order`:
`f"{market_prefix}_{symbol}_{interval}_EMA{ema}_{side}"` after
normalization of each component. -/
def derivedOrderId (a : AddArgs) : String :=
  let sym := normSymbol a.symbol
  let itv := normalizeInterval a.interval
  let sideU := pyUpper a.side
  let mt := pyLower a.market_type
  (if mt == "spot" then "SPOT" else "FUT")
    ++ "_" ++ sym ++ "_" ++ itv ++ "_EMA" ++ toString a.ema ++ "_" ++ sideU

/-- The dict appended by a successful `add_order`. -/
def newOrderRec (a : AddArgs) (now : String) : OrderRec :=
  { id := derivedOrderId a, symbol := normSymbol a.symbol,
    interval := normalizeInterval a.interval, ema := a.ema,
    side := pyUpper a.side, quantity := a.quantity,
    binance_order_id := none, status := "active",
    created_at := now, market_type := pyLower a.market_type,
    leverage := if pyLower a.market_type == "futures" then a.leverage else none,
    margin_type := if pyLower a.market_type == "futures" then a.margin_type else none,
    position_side := if pyLower a.market_type == "futures" then a.position_side else none,
    notified_error := false }

/-- OrderManager.add_order.  Validates in source order (ema, side,
market_type, duplicate id) and raises `ValueError` (modelled as
`Except.error`) before anything is appended or saved; on success the new
record is appended and the enlarged store saved. -/
def add_order (store : Store) (a : AddArgs) (now : String) :
    Except String (OrderRec × Store) :=
  if a.ema ∈ SUPPORTED_EMA then
    if pyUpper a.side == "BUY" || pyUpper a.side == "SELL" then
      if pyLower a.market_type ∈ MARKET_TYPES then
        if store.any (fun o => o.id == derivedOrderId a) then
          Except.error "order already exists"
        else
          Except.ok (newOrderRec a now, store ++ [newOrderRec a now])
      else Except.error "bad market_type"
    else Except.error "bad side"
  else Except.error "bad ema"

/-- Store contents after an `add_order` attempt: the file is written only
on the success path (`save_orders` is the last statement before
`return`), so a raised `ValueError` leaves the persisted array as it
was. -/
def add_order_store (store : Store) (a : AddArgs) (now : String) : Store :=
  match add_order store a now with
  | Except.ok x => x.2
  | Except.error _ => store

/-- Numeric body of the module-level `calculate_ema` (lines 334-348),
as a function of the close prices already stripped of the last,
still-forming candle: if fewer than `period` closes are available the
source prints a warning and returns `0.0`; otherwise seed with the SMA
of the first `period` closes and fold the standard EMA recurrence with
`k = 2 / (period + 1)` over the remaining closes. -/
def calculate_ema (closes : List ℚ) (period : Nat) : ℚ :=
  if closes.length < period then 0
  else
    let k : ℚ := 2 / (period + 1)
    (closes.drop period).foldl (fun ema close => close * k + ema * (1 - k))
      ((closes.take period).sum / (period : ℚ))

/-- Exchange-side outcomes feeding one reconciliation pass: the value
returned by `calculate_ema`, the open-orders snapshot as
(orderId, price) pairs, the outcome of a `cancel_order` call, the answer
of a `get_order_status` lookup (`none` models the `None` returned on a
lookup exception), and the outcome of a `create_order` call (`some id`
on success, `none` when it raises). -/
structure Oracle where
  ema_price : ℚ
  open_orders : List (Int × ℚ)
  cancel_result : CancelRes
  order_status : Option String
  create_result : Option Int
deriving DecidableEq

/-- Result of one reconciliation pass: store after the pass, the ordered
order-mutating exchange calls issued, the notifications emitted and the
return value. -/
structure PassOutput where
  store : Store
  calls : List Call
  notifs : List Notif
  result : PassResult
deriving DecidableEq

/-- EMATrailingBot.price_threshold (0.3 percent). -/
def price_threshold : ℚ := 3 / 1000

/-- The catch-all `except` branch of `process_order` (lines 750-758):
notify once while `notified_error` is still false, set the flag, return
the generic error result.  `calls` are the exchange calls already issued
before the exception. -/
def catchAllWith (store : Store) (cfg : OrderRec) (calls : List Call) : PassOutput :=
  if cfg.notified_error then
    { store := store, calls := calls, notifs := [], result := PassResult.error }
  else
    { store := set_notified store cfg.id true, calls := calls,
      notifs := [Notif.procError], result := PassResult.error }

/-- Lookup of the bound order in the open-orders snapshot (lines
623-627).  The guard is Python truthiness (`if binance_order_id:`), so a
stored id of `0` or `None` skips the loop; otherwise the first matching
entry is taken. -/
def ourOrderOf (cfg : OrderRec) (openOrders : List (Int × ℚ)) : Option (Int × ℚ) :=
  match cfg.binance_order_id with
  | none => none
  | some bid => if bid == 0 then none else openOrders.find? (fun x => x.1 == bid)

/-- The create attempt shared by the unbound and bound-but-missing paths
(lines 713-748): on success store the new handle and clear the
error-notified flag, notify "created"; on failure notify once (if not
yet notified) and set the flag — the stored `binance_order_id` is NOT
touched on this failure path. -/
def createAttempt (store : Store) (cfg : OrderRec) (o : Oracle) : PassOutput :=
  match o.create_result with
  | some nid =>
      { store := update_order store cfg.id
          (fun r => { r with binance_order_id := some nid, notified_error := false }),
        calls := [Call.create o.ema_price],
        notifs := [Notif.createSuccess], result := PassResult.created }
  | none =>
      { store := if cfg.notified_error then store else set_notified store cfg.id true,
        calls := [Call.create o.ema_price],
        notifs := if cfg.notified_error then [] else [Notif.failCreate],
        result := PassResult.createFailed }

/-- The bound-but-missing / unbound path (lines 700-748): with a stored
handle absent from the open set, look the status up; `FILLED` retires
the record with a fill notification, anything else falls through to the
create attempt; with no stored handle, create directly. -/
def absentBranch (store : Store) (cfg : OrderRec) (o : Oracle) : PassOutput :=
  match cfg.binance_order_id with
  | some _ =>
      if o.order_status = some "FILLED" then
        { store := remove_order store cfg.id, calls := [],
          notifs := [Notif.fill], result := PassResult.filled }
      else createAttempt store cfg o
  | none => createAttempt store cfg o

/-- The Replace procedure (lines 636-694), entered when the bound order
is open at price `p` and the deviation exceeds the threshold: cancel
first; on an "Unknown order" cancel failure check for a fill, otherwise
abort; after a successful cancel attempt the replacement create — on its
failure notify once, set the flag and clear the stored handle.  When the
replacement lands but the old price `p` is zero, the percentage-move
computation of line 669 divides by zero after the store was already
updated, landing in the catch-all. -/
def replaceBranch (store : Store) (cfg : OrderRec) (bid : Int) (p : ℚ)
    (o : Oracle) : PassOutput :=
  match o.cancel_result with
  | CancelRes.ok =>
      match o.create_result with
      | some nid =>
          let store1 := update_order store cfg.id
            (fun r => { r with binance_order_id := some nid, notified_error := false })
          if p = 0 then
            catchAllWith store1 cfg [Call.cancel bid, Call.create o.ema_price]
          else
            { store := store1,
              calls := [Call.cancel bid, Call.create o.ema_price],
              notifs := [Notif.replaceSuccess], result := PassResult.replaced }
      | none =>
          let store1 := if cfg.notified_error then store
                        else set_notified store cfg.id true
          { store := update_binance_order_id store1 cfg.id none,
            calls := [Call.cancel bid, Call.create o.ema_price],
            notifs := if cfg.notified_error then [] else [Notif.failUpdate],
            result := PassResult.createFailedAfterCancel }
  | CancelRes.errUnknown =>
      if o.order_status = some "FILLED" then
        { store := remove_order store cfg.id, calls := [Call.cancel bid],
          notifs := [Notif.fill], result := PassResult.filled }
      else
        { store := store, calls := [Call.cancel bid], notifs := [],
          result := PassResult.cancelFailed }
  | CancelRes.errOther =>
      { store := store, calls := [Call.cancel bid], notifs := [],
        result := PassResult.cancelFailed }

/-- The body of `process_order`'s try block (lines 616-748), given the
exchange outcomes of the pass.  A zero EMA value makes the
price-deviation computation of line 631 divide by zero, which the
catch-all absorbs. -/
def processOrderTry (store : Store) (cfg : OrderRec) (o : Oracle) : PassOutput :=
  match ourOrderOf cfg o.open_orders with
  | some x =>
      if o.ema_price = 0 then catchAllWith store cfg []
      else if |x.2 - o.ema_price| / o.ema_price > price_threshold then
        replaceBranch store cfg x.1 x.2 o
      else
        { store := if cfg.notified_error then set_notified store cfg.id false else store,
          calls := [], notifs := [], result := PassResult.noAction }
  | none => absentBranch store cfg o

/-- Names bound by the `BinanceClient` class body.  In the source the
class body ends just before line 304, where `def calculate_ema` appears
at column zero (module scope); the method definitions that follow it
(lines 352-587) are nested inside its body after its `return` and are
never executed, so they bind nothing. -/
def binanceClientMethods : List String :=
  ["__init__", "_sync_time", "_sign", "get_symbol_info",
   "format_price", "format_quantity", "get_current_price"]

/-- Instance attributes assigned in `BinanceClient.__init__`. -/
def binanceClientInitAttrs : List String :=
  ["api_key", "api_secret", "futures_base_url", "spot_base_url",
   "session", "time_offset", "_futures_exchange_info",
   "_spot_exchange_info", "_position_mode"]

/-- Python attribute lookup on a `BinanceClient` instance. -/
def binanceClientHasAttr (n : String) : Bool :=
  binanceClientMethods.contains n || binanceClientInitAttrs.contains n

/-- Functions defined at module scope of `ema_bot.py`.  `calculate_ema`
is among them because its `def` is dedented to column zero. -/
def moduleFunctions : List String :=
  ["send_telegram_message", "calculate_ema", "print_help", "cmd_list",
   "cmd_remove", "cmd_ema", "cmd_price", "cmd_balance", "main"]

/-- The method names trapped as dead nested functions inside the body of
the module-level `calculate_ema` (lines 352-587). -/
def nestedDeadDefs : List String :=
  ["get_account_balance", "get_position_mode", "get_leverage",
   "set_leverage", "get_margin_type", "set_margin_type",
   "get_open_orders", "get_order_status", "create_order",
   "_create_spot_order", "_create_futures_order", "cancel_order"]

/-- Dynamic behaviour of one `process_order` call: its first statement
inside `try` is `self.client.calculate_ema(...)` (line 617), so the
attribute lookup decides whether the try body runs at all; when the
lookup fails the raised `AttributeError` goes straight to the
catch-all. -/
def process_order (store : Store) (cfg : OrderRec) (o : Oracle) : PassOutput :=
  if binanceClientHasAttr "calculate_ema" then processOrderTry store cfg o
  else catchAllWith store cfg []

/-- Fuel-driven largest exponent e with p^e dividing n (structural
recursion so that concrete instances reduce). -/
def maxPowAux (p : Nat) : Nat → Nat → Nat
  | 0, _ => 0
  | fuel + 1, n => if 2 ≤ p ∧ 0 < n ∧ n % p = 0 then maxPowAux p fuel (n / p) + 1 else 0

/-- Largest exponent e with p^e dividing n. -/
def decPow (p n : Nat) : Nat := maxPowAux p n n

/-- Number of decimal digits of a decimal rational: for `a / 10^d` in
lowest terms this is `max` of the 2-adic and 5-adic valuations of the
denominator (the length of the shortest exact decimal expansion). -/
def decDigits (step : ℚ) : Nat :=
  max (decPow 2 step.den) (decPow 5 step.den)

/-- Fuel-driven count of the base-ten digits of a natural number. -/
def digitCount : Nat → Nat → Nat
  | 0, _ => 1
  | fuel + 1, n => if n < 10 then 1 else digitCount fuel (n / 10) + 1

/-- Digit count of the scientific-notation mantissa of a decimal step:
writing the step as `S / 10^decDigits` with `S` not divisible by ten,
the mantissa is `S` with the decimal point after its first digit, so it
has `digitCount S` significant digits (`S` is recovered from the
reduced numerator and denominator as `num·10^decDigits / den`). -/
def sciMantissaDigits (step : ℚ) : Nat :=
  digitCount (step.num.natAbs * 10 ^ decDigits step / step.den)
    (step.num.natAbs * 10 ^ decDigits step / step.den)

/-- Precision the source derives from a tick/step value via
`len(str(tick_size).rstrip('0').split('.')[-1])` (lines 258-261 /
278-281), transported to the exact-rational model of the float:
* zero when the step is at least one (the source's explicit branch);
* for `1/10^4 ≤ step < 1` Python renders the float in fixed-point
  notation, so the computation yields the decimal digit count of the
  step;
* for `step < 1/10^4` Python renders the float in scientific notation
  (`'1e-06'`, `'2.5e-05'`, ...): when the mantissa is a single digit the
  string contains no decimal point and `split('.')[-1]` is the whole
  five-character string, and otherwise the tail after the point is the
  mantissa's f fractional digits followed by the four characters `e-0k`,
  giving `f + 4` — NOT the decimal digit count of the step.  (The
  exponent is rendered with two digits and no stripped zero for steps
  down to `1e-09`, which covers every exchange tick/lot size.) -/
def tickPrecision (step : ℚ) : Nat :=
  if 1 ≤ step then 0
  else if 1 / 10000 ≤ step then decDigits step
  else if sciMantissaDigits step = 1 then 5
  else sciMantissaDigits step - 1 + 4

/-- Round-half-to-even to an integer, the rounding used by Python
fixed-point string formatting. -/
def roundHalfEven (q : ℚ) : Int :=
  let n : Int := ⌊q⌋
  if q - n < 1 / 2 then n
  else if 1 / 2 < q - n then n + 1
  else if n % 2 = 0 then n else n + 1

/-- Python `f"{x:.pf}"` as a value: round-half-to-even at p decimal
digits. -/
def pyRound (p : Nat) (q : ℚ) : ℚ :=
  (roundHalfEven (q * 10 ^ p) : ℚ) / 10 ^ p

/-- Core of `BinanceClient.format_price` once the PRICE_FILTER tick size
is known (lines 254-264): floor-divide by the tick, multiply back, and
format at the precision implied by the tick. -/
def format_price (tick : ℚ) (price : ℚ) : ℚ :=
  pyRound (tickPrecision tick) ((⌊price / tick⌋ : ℚ) * tick)

/-- Core of `BinanceClient.format_quantity` once the LOT_SIZE step size
is known (lines 274-284). -/
def format_quantity (step : ℚ) (quantity : ℚ) : ℚ :=
  pyRound (tickPrecision step) ((⌊quantity / step⌋ : ℚ) * step)

/-- Oracle for a pass where the bound order is open at 100, the EMA
target moved to 200, the cancel succeeds and the create raises. -/
def oracleReplaceFail : Oracle :=
  { ema_price := 200, open_orders := [(7, 100)],
    cancel_result := CancelRes.ok, order_status := none, create_result := none }

/-- Oracle for a pass where the bound order is open exactly at the EMA
target. -/
def oracleInRange : Oracle :=
  { ema_price := 100, open_orders := [(7, 100)],
    cancel_result := CancelRes.ok, order_status := none, create_result := none }

/-- Oracle for a pass where the bound order has disappeared, its status
reads CANCELED and the re-create raises. -/
def oracleMissCancel : Oracle :=
  { ema_price := 100, open_orders := [],
    cancel_result := CancelRes.ok, order_status := some "CANCELED",
    create_result := none }

/-- Oracle for a pass where the bound order has disappeared and its
status reads FILLED. -/
def oracleFilled : Oracle :=
  { ema_price := 100, open_orders := [],
    cancel_result := CancelRes.ok, order_status := some "FILLED",
    create_result := none }

/-- Oracle for a Replace pass whose cancel fails with "Unknown order"
and whose status lookup then reads FILLED. -/
def oracleUnknownFilled : Oracle :=
  { ema_price := 200, open_orders := [(7, 100)],
    cancel_result := CancelRes.errUnknown, order_status := some "FILLED",
    create_result := none }

/-- Oracle for a Replace pass whose cancel fails with a non-UnknownOrder
error. -/
def oracleCancelOther : Oracle :=
  { ema_price := 200, open_orders := [(7, 100)],
    cancel_result := CancelRes.errOther, order_status := none,
    create_result := some 9 }

/-- Oracle for a pass in which `calculate_ema` returned the 0.0
sentinel while the bound order is open. -/
def oracleZeroEma : Oracle :=
  { ema_price := 0, open_orders := [(7, 100)],
    cancel_result := CancelRes.ok, order_status := none, create_result := none }

/-- Sample tracked-order record used to instantiate scenario theorems on
concrete inputs. -/
def sampleRec (bid : Option Int) (notified : Bool) : OrderRec :=
  { id := "FUT_BTCUSDT_1h_EMA21_BUY", symbol := "BTCUSDT", interval := "1h",
    ema := 21, side := "BUY", quantity := 1, binance_order_id := bid,
    status := "active", created_at := "2024-01-01T00:00:00",
    market_type := "futures", leverage := none, margin_type := none,
    position_side := none, notified_error := notified }

/-- Updating the first record with a given id commutes with looking that
id up, provided the update preserves the id. -/
theorem find?_update_order (store : Store) (oid : String)
    (f : OrderRec → OrderRec) (r : OrderRec) (hf : (f r).id = r.id)
    (h : store.find? (fun x => x.id == oid) = some r) :
    (update_order store oid f).find? (fun x => x.id == oid) = some (f r) := by
  induction store with
  | nil => simp [List.find?] at h
  | cons a rest ih =>
    rw [List.find?_cons] at h
    cases hb : (a.id == oid) with
    | true =>
      rw [hb] at h
      have har : a = r := by simpa using h
      subst har
      simp only [update_order, hb, if_true]
      rw [List.find?_cons]
      have : ((f a).id == oid) = true := by rw [hf]; exact hb
      rw [this]
    | false =>
      rw [hb] at h
      simp only [update_order, hb, Bool.false_eq_true, if_false]
      rw [List.find?_cons, hb]
      exact ih h

/-- Every record surviving `remove_order` has a different id. -/
theorem mem_remove_order_ne (store : Store) (oid : String) :
    ∀ r ∈ remove_order store oid, r.id ≠ oid := by
  intro r hr
  rw [remove_order, List.mem_filter] at hr
  simpa using hr.2

/-- Rewriting the notified flag to its current value is the identity. -/
theorem withNotified_self (r : OrderRec) (b : Bool)
    (h : r.notified_error = b) :
    ({ r with notified_error := b } : OrderRec) = r := by
  cases r
  cases h
  rfl

/-- Reduction of a pass to the Replace procedure: the bound order is in
the open set and the deviation exceeds the threshold. -/
theorem processOrderTry_eq_replace (store : Store) (cfg : OrderRec) (o : Oracle)
    (bid : Int) (p : ℚ)
    (hour : ourOrderOf cfg o.open_orders = some (bid, p))
    (hema : o.ema_price ≠ 0)
    (hdiff : |p - o.ema_price| / o.ema_price > price_threshold) :
    processOrderTry store cfg o = replaceBranch store cfg bid p o := by
  unfold processOrderTry
  rw [hour]
  dsimp only
  rw [if_neg hema, if_pos hdiff]

/-- Reduction of a pass to the in-threshold no-action outcome. -/
theorem processOrderTry_eq_noAction (store : Store) (cfg : OrderRec) (o : Oracle)
    (bid : Int) (p : ℚ)
    (hour : ourOrderOf cfg o.open_orders = some (bid, p))
    (hema : o.ema_price ≠ 0)
    (hdiff : |p - o.ema_price| / o.ema_price ≤ price_threshold) :
    processOrderTry store cfg o
      = { store := if cfg.notified_error then set_notified store cfg.id false else store,
          calls := [], notifs := [], result := PassResult.noAction } := by
  unfold processOrderTry
  rw [hour]
  dsimp only
  rw [if_neg hema, if_neg (not_lt.mpr hdiff)]

/-- Reduction of a pass to the bound-but-missing / unbound path. -/
theorem processOrderTry_eq_absent (store : Store) (cfg : OrderRec) (o : Oracle)
    (hour : ourOrderOf cfg o.open_orders = none) :
    processOrderTry store cfg o = absentBranch store cfg o := by
  unfold processOrderTry
  rw [hour]

/-- C2: in the Replace procedure, when the cancel succeeds and the
replacement create fails on a not-yet-notified order, the pass clears
the stored handle, sets the error-notified flag and emits exactly one
failure notification; a second consecutive pass failing the same way
(now a plain Create attempt, since the handle is gone) emits no further
notification and changes nothing. -/
theorem claim_c2_replace_failure (store : Store) (cfg : OrderRec)
    (o1 o2 : Oracle) (bid : Int) (p : ℚ)
    (hn : cfg.notified_error = false)
    (hfind : store.find? (fun r => r.id == cfg.id) = some cfg)
    (hour : ourOrderOf cfg o1.open_orders = some (bid, p))
    (hema : o1.ema_price ≠ 0)
    (hdiff : |p - o1.ema_price| / o1.ema_price > price_threshold)
    (hcan : o1.cancel_result = CancelRes.ok)
    (hcr1 : o1.create_result = none)
    (hcr2 : o2.create_result = none) :
    (processOrderTry store cfg o1).notifs = [Notif.failUpdate] ∧
    (processOrderTry store cfg o1).store.find? (fun r => r.id == cfg.id)
      = some { cfg with binance_order_id := none, notified_error := true } ∧
    (processOrderTry (processOrderTry store cfg o1).store
        { cfg with binance_order_id := none, notified_error := true } o2).notifs = [] ∧
    (processOrderTry (processOrderTry store cfg o1).store
        { cfg with binance_order_id := none, notified_error := true } o2).store
      = (processOrderTry store cfg o1).store := by
  have h1 : processOrderTry store cfg o1 = replaceBranch store cfg bid p o1 :=
    processOrderTry_eq_replace store cfg o1 bid p hour hema hdiff
  have h2 : replaceBranch store cfg bid p o1
      = { store := update_binance_order_id (set_notified store cfg.id true) cfg.id none,
          calls := [Call.cancel bid, Call.create o1.ema_price],
          notifs := [Notif.failUpdate],
          result := PassResult.createFailedAfterCancel } := by
    unfold replaceBranch
    rw [hcan]
    dsimp only
    rw [hcr1]
    simp [hn]
  have hfindmid : (set_notified store cfg.id true).find? (fun r => r.id == cfg.id)
      = some { cfg with notified_error := true } :=
    find?_update_order store cfg.id _ cfg rfl hfind
  have hfind2 : (update_binance_order_id (set_notified store cfg.id true) cfg.id
        none).find? (fun r => r.id == cfg.id)
      = some { cfg with binance_order_id := none, notified_error := true } :=
    find?_update_order _ cfg.id _ _ rfl hfindmid
  have hour2 : ourOrderOf { cfg with binance_order_id := none, notified_error := true }
      o2.open_orders = none := rfl
  have h3 : processOrderTry (processOrderTry store cfg o1).store
        { cfg with binance_order_id := none, notified_error := true } o2
      = { store := (processOrderTry store cfg o1).store,
          calls := [Call.create o2.ema_price], notifs := [],
          result := PassResult.createFailed } := by
    rw [processOrderTry_eq_absent _ _ _ hour2]
    unfold absentBranch
    dsimp only
    unfold createAttempt
    rw [hcr2]
    simp
  exact ⟨by rw [h1, h2], by rw [h1, h2]; exact hfind2, by rw [h3], by rw [h3]⟩

/-- C4: with the bound order open at a price within the threshold of a
nonzero EMA target, the pass issues no place or cancel call and emits
nothing; it at most clears the error-notified flag, and a second pass
under the same exchange state is a pure no-op. -/
theorem claim_c4_in_threshold_idempotent (store : Store) (cfg : OrderRec)
    (o : Oracle) (bid : Int) (p : ℚ)
    (hfind : store.find? (fun r => r.id == cfg.id) = some cfg)
    (hour : ourOrderOf cfg o.open_orders = some (bid, p))
    (hema : o.ema_price ≠ 0)
    (hdiff : |p - o.ema_price| / o.ema_price ≤ price_threshold) :
    (processOrderTry store cfg o).calls = [] ∧
    (processOrderTry store cfg o).notifs = [] ∧
    (processOrderTry store cfg o).store
      = (if cfg.notified_error then set_notified store cfg.id false else store) ∧
    (processOrderTry store cfg o).store.find? (fun r => r.id == cfg.id)
      = some { cfg with notified_error := false } ∧
    processOrderTry (processOrderTry store cfg o).store
        { cfg with notified_error := false } o
      = { store := (processOrderTry store cfg o).store, calls := [],
          notifs := [], result := PassResult.noAction } := by
  have h1 := processOrderTry_eq_noAction store cfg o bid p hour hema hdiff
  have hfind1 : (processOrderTry store cfg o).store.find? (fun r => r.id == cfg.id)
      = some { cfg with notified_error := false } := by
    rw [h1]
    cases hb : cfg.notified_error with
    | true =>
      simp only [hb, if_true]
      exact find?_update_order store cfg.id _ cfg rfl hfind
    | false =>
      simp only [hb, Bool.false_eq_true, if_false]
      rw [withNotified_self cfg false hb]
      exact hfind
  have hour2 : ourOrderOf { cfg with notified_error := false } o.open_orders
      = some (bid, p) := hour
  have h2 : processOrderTry (processOrderTry store cfg o).store
        { cfg with notified_error := false } o
      = { store := (processOrderTry store cfg o).store, calls := [],
          notifs := [], result := PassResult.noAction } := by
    rw [processOrderTry_eq_noAction _ _ o bid p hour2 hema hdiff]
    simp
  exact ⟨by rw [h1], by rw [h1], by rw [h1], hfind1, h2⟩

/-- C1: for every tracked-order configuration and every exchange
behaviour, `EMATrailingBot.process_order` issues no place or cancel call
and returns the generic catch-all error result, because the attribute
`calculate_ema` does not exist on `BinanceClient` instances (it is a
module-scope function, and the methods following it are dead code nested
in its body), and the module-level `calculate_ema` itself starts by
looking up the nonexistent `self._get_base_url`. -/
theorem claim_c1_attribute_error (store : Store) (cfg : OrderRec) (o : Oracle) :
    binanceClientHasAttr "calculate_ema" = false ∧
    binanceClientHasAttr "_get_base_url" = false ∧
    moduleFunctions.contains "calculate_ema" = true ∧
    nestedDeadDefs.all (fun n => !binanceClientHasAttr n) = true ∧
    (process_order store cfg o).calls = [] ∧
    (process_order store cfg o).result = PassResult.error := by
  refine ⟨by decide, by decide, by decide, by decide, ?_, ?_⟩ <;>
  · rw [process_order, if_neg (by decide)]
    unfold catchAllWith
    by_cases hn : cfg.notified_error <;> simp [hn]

/-- C7: the EMA is the SMA seed of the first `period` closes followed by
the recurrence `ema· = c·k + ema·(1-k)` with `k = 2/(period+1)` applied
to each later close in order; appending one close applies exactly one
recurrence step, and the concrete example from the specification
evaluates exactly (closes = [10,11,12,13,14,15], period = 3, seed 11,
final value 14). -/
theorem claim_c7_ema_recurrence (closes : List ℚ) (c : ℚ) (period : Nat)
    (hp : 0 < period) (hl : period ≤ closes.length) :
    (closes.length = period →
      calculate_ema closes period = closes.sum / (period : ℚ)) ∧
    calculate_ema (closes ++ [c]) period
      = c * (2 / (period + 1))
        + calculate_ema closes period * (1 - 2 / (period + 1)) ∧
    calculate_ema [10, 11, 12, 13, 14, 15] 3 = 14 := by
  refine ⟨?_, ?_, ?_⟩
  · intro h
    rw [calculate_ema, if_neg (by omega)]
    rw [← h, List.take_length, List.drop_length]
    simp
  · rw [calculate_ema, if_neg (by simp only [List.length_append, List.length_singleton]; omega)]
    rw [calculate_ema, if_neg (by omega)]
    rw [List.take_append_of_le_length hl, List.drop_append_of_le_length hl,
      List.foldl_append]
    simp
  · norm_num [calculate_ema, List.foldl]

/-- Witness for C7: period 3, closes [10,11,12] and appended close 13
satisfy the hypotheses, and the recurrence step evaluates. -/
theorem claim_c7_witness :
    0 < 3 ∧ 3 ≤ ([10, 11, 12] : List ℚ).length ∧
    calculate_ema ([10, 11, 12] ++ [13]) 3
      = 13 * (2 / ((3 : Nat) + 1))
        + calculate_ema [10, 11, 12] 3 * (1 - 2 / ((3 : Nat) + 1)) :=
  ⟨by norm_num, by norm_num,
    (claim_c7_ema_recurrence [10, 11, 12] 13 3 (by norm_num) (by norm_num)).2.1⟩

/-- C10: attempting to add a tracked order whose derived id already
exists in the store raises a validation error and leaves the persisted
store unchanged, for every prior store contents and input tuple. -/
theorem claim_c10_duplicate_add_rejected (store : Store) (a : AddArgs)
    (now : String) (h : derivedOrderId a ∈ store.map (fun r => r.id)) :
    (∃ e, add_order store a now = Except.error e) ∧
    add_order_store store a now = store := by
  have hdup : store.any (fun r => r.id == derivedOrderId a) = true := by
    rw [List.any_eq_true]
    rcases List.mem_map.mp h with ⟨r, hr, hid⟩
    exact ⟨r, hr, by simp [hid]⟩
  constructor
  · unfold add_order
    split_ifs with h1 h2 h3
    · exact ⟨_, rfl⟩
    · exact ⟨_, rfl⟩
    · exact ⟨_, rfl⟩
    · exact ⟨_, rfl⟩
  · unfold add_order_store add_order
    split_ifs with h1 h2 h3
    · rfl
    · rfl
    · rfl
    · rfl

/-- Witness for C10: adding BTC / 1h / EMA21 / buy / futures against a
store already holding FUT_BTCUSDT_1h_EMA21_BUY leaves the store
unchanged. -/
theorem claim_c10_witness :
    derivedOrderId ⟨"BTC", "1h", 21, "buy", 1, none, none, none, "futures"⟩
      ∈ ([sampleRec none false].map (fun r => r.id)) ∧
    add_order_store [sampleRec none false]
      ⟨"BTC", "1h", 21, "buy", 1, none, none, none, "futures"⟩ "now"
      = [sampleRec none false] :=
  ⟨by decide,
    (claim_c10_duplicate_add_rejected [sampleRec none false]
      ⟨"BTC", "1h", 21, "buy", 1, none, none, none, "futures"⟩ "now" (by decide)).2⟩

/-- Witness for C2: a concrete Replace-failure pass (order 7 at 100,
target 200, cancel ok, create raises) emits exactly the one failure
notification, and the consecutive failing pass emits none. -/
theorem claim_c2_witness :
    (processOrderTry [sampleRec (some 7) false] (sampleRec (some 7) false)
        oracleReplaceFail).notifs = [Notif.failUpdate] ∧
    (processOrderTry
        (processOrderTry [sampleRec (some 7) false] (sampleRec (some 7) false)
          oracleReplaceFail).store
        { (sampleRec (some 7) false) with
            binance_order_id := none, notified_error := true }
        oracleReplaceFail).notifs = [] := by
  have h := claim_c2_replace_failure [sampleRec (some 7) false]
    (sampleRec (some 7) false) oracleReplaceFail oracleReplaceFail 7 100
    rfl (by decide) (by decide) (by decide)
    (by norm_num [oracleReplaceFail, price_threshold]) rfl rfl rfl
  exact ⟨h.1, h.2.2.1⟩

/-- Witness for C4: a concrete in-threshold pass (order 7 at 100, target
100) makes no calls and its repetition is a pure no-op. -/
theorem claim_c4_witness :
    (processOrderTry [sampleRec (some 7) false] (sampleRec (some 7) false)
        oracleInRange).calls = [] ∧
    processOrderTry
        (processOrderTry [sampleRec (some 7) false] (sampleRec (some 7) false)
          oracleInRange).store
        { (sampleRec (some 7) false) with notified_error := false } oracleInRange
      = { store := (processOrderTry [sampleRec (some 7) false]
            (sampleRec (some 7) false) oracleInRange).store,
          calls := [], notifs := [], result := PassResult.noAction } := by
  have h := claim_c4_in_threshold_idempotent [sampleRec (some 7) false]
    (sampleRec (some 7) false) oracleInRange 7 100
    (by decide) (by decide) (by decide)
    (by norm_num [oracleInRange, price_threshold])
  exact ⟨h.1, h.2.2.2.2⟩

/-- Counterexample to C3: a pass whose bound order (handle 42) has
disappeared (status CANCELED) and whose re-create fails leaves the stale
handle 42 stored — the handle is neither cleared to None nor present in
the (empty) open-orders set, and the record was not removed. -/
theorem claim_c3_counterexample :
    processOrderTry [sampleRec (some 42) false] (sampleRec (some 42) false)
        oracleMissCancel
      = { store := [{ (sampleRec (some 42) false) with notified_error := true }],
          calls := [Call.create 100], notifs := [Notif.failCreate],
          result := PassResult.createFailed } ∧
    ({ (sampleRec (some 42) false) with notified_error := true } : OrderRec).binance_order_id
      = some 42 ∧
    (∀ x ∈ oracleMissCancel.open_orders, x.1 ≠ 42) := by
  refine ⟨by decide, rfl, by decide⟩

/-- C3 as amended: after a pass in which the bound order disappeared
(status not FILLED), a successful re-create stores the fresh handle, but
a failed re-create leaves the stale old handle stored unchanged (only
the error-notified flag may change) — the handle is only ever cleared in
the Replace cancel-succeeded/place-failed branch. -/
theorem claim_c3_amended_stale_handle (store : Store) (cfg : OrderRec)
    (o : Oracle) (bid : Int)
    (hbid : cfg.binance_order_id = some bid)
    (hour : ourOrderOf cfg o.open_orders = none)
    (hst : o.order_status ≠ some "FILLED")
    (hfind : store.find? (fun r => r.id == cfg.id) = some cfg) :
    (o.create_result = none →
      (processOrderTry store cfg o).store.find? (fun r => r.id == cfg.id)
        = some { cfg with notified_error := true } ∧
      ({ cfg with notified_error := true } : OrderRec).binance_order_id = some bid) ∧
    (∀ nid, o.create_result = some nid →
      (processOrderTry store cfg o).store.find? (fun r => r.id == cfg.id)
        = some { cfg with binance_order_id := some nid, notified_error := false }) := by
  have habs : processOrderTry store cfg o = createAttempt store cfg o := by
    rw [processOrderTry_eq_absent _ _ _ hour]
    unfold absentBranch
    rw [hbid]
    dsimp only
    rw [if_neg hst]
  constructor
  · intro hcr
    constructor
    · rw [habs]
      unfold createAttempt
      rw [hcr]
      dsimp only
      cases hb : cfg.notified_error with
      | true =>
        simp only [hb, if_true]
        rw [withNotified_self cfg true hb]
        exact hfind
      | false =>
        simp only [hb, Bool.false_eq_true, if_false]
        exact find?_update_order store cfg.id _ cfg rfl hfind
    · exact hbid
  · intro nid hcr
    rw [habs]
    unfold createAttempt
    rw [hcr]
    dsimp only
    exact find?_update_order store cfg.id _ cfg rfl hfind

/-- Witness for the amended C3: the concrete disappeared-and-create-fails
pass keeps handle 42 stored with the error flag set. -/
theorem claim_c3_amended_witness :
    (processOrderTry [sampleRec (some 42) false] (sampleRec (some 42) false)
        oracleMissCancel).store.find?
        (fun r => r.id == (sampleRec (some 42) false).id)
      = some { (sampleRec (some 42) false) with notified_error := true } ∧
    ({ (sampleRec (some 42) false) with notified_error := true } : OrderRec).binance_order_id
      = some 42 :=
  (claim_c3_amended_stale_handle [sampleRec (some 42) false]
    (sampleRec (some 42) false) oracleMissCancel 42 rfl (by decide) (by decide)
    (by decide)).1 rfl

/-- C5: a bound order found missing with status FILLED is retired with
exactly one fill notification and its id leaves the store (so no later
pass reconciles it); the same holds when a Replace cancel fails with
UnknownOrder and the status lookup then reads FILLED. -/
theorem claim_c5_fill_detection (store : Store) (cfg : OrderRec) (o : Oracle)
    (bid : Int) (p : ℚ) :
    (cfg.binance_order_id = some bid →
      ourOrderOf cfg o.open_orders = none →
      o.order_status = some "FILLED" →
      processOrderTry store cfg o
        = { store := remove_order store cfg.id, calls := [],
            notifs := [Notif.fill], result := PassResult.filled } ∧
      ∀ r ∈ (processOrderTry store cfg o).store, r.id ≠ cfg.id) ∧
    (ourOrderOf cfg o.open_orders = some (bid, p) →
      o.ema_price ≠ 0 →
      |p - o.ema_price| / o.ema_price > price_threshold →
      o.cancel_result = CancelRes.errUnknown →
      o.order_status = some "FILLED" →
      processOrderTry store cfg o
        = { store := remove_order store cfg.id, calls := [Call.cancel bid],
            notifs := [Notif.fill], result := PassResult.filled } ∧
      ∀ r ∈ (processOrderTry store cfg o).store, r.id ≠ cfg.id) := by
  constructor
  · intro hbid hour hst
    have h2 : processOrderTry store cfg o
        = { store := remove_order store cfg.id, calls := [],
            notifs := [Notif.fill], result := PassResult.filled } := by
      rw [processOrderTry_eq_absent _ _ _ hour]
      unfold absentBranch
      rw [hbid]
      dsimp only
      rw [if_pos hst]
    refine ⟨h2, ?_⟩
    rw [h2]
    exact mem_remove_order_ne store cfg.id
  · intro hour hema hdiff hcan hst
    have h2 : processOrderTry store cfg o
        = { store := remove_order store cfg.id, calls := [Call.cancel bid],
            notifs := [Notif.fill], result := PassResult.filled } := by
      rw [processOrderTry_eq_replace store cfg o bid p hour hema hdiff]
      unfold replaceBranch
      rw [hcan]
      dsimp only
      rw [if_pos hst]
    refine ⟨h2, ?_⟩
    rw [h2]
    exact mem_remove_order_ne store cfg.id

/-- Witness for C5: both concrete fill-detection passes retire the
tracked order with one fill notification. -/
theorem claim_c5_witness :
    processOrderTry [sampleRec (some 7) false] (sampleRec (some 7) false)
        oracleFilled
      = { store := [], calls := [], notifs := [Notif.fill],
          result := PassResult.filled } ∧
    processOrderTry [sampleRec (some 7) false] (sampleRec (some 7) false)
        oracleUnknownFilled
      = { store := [], calls := [Call.cancel 7], notifs := [Notif.fill],
          result := PassResult.filled } := by
  have hA := (claim_c5_fill_detection [sampleRec (some 7) false]
    (sampleRec (some 7) false) oracleFilled 7 100).1 rfl (by decide) rfl
  have hB := (claim_c5_fill_detection [sampleRec (some 7) false]
    (sampleRec (some 7) false) oracleUnknownFilled 7 100).2 (by decide)
    (by decide) (by norm_num [oracleUnknownFilled, price_threshold]) rfl rfl
  constructor
  · rw [hA.1]; decide
  · rw [hB.1]; decide

/-- C6: in every pass the issued order-mutating calls are one of: no
call, a single create, a single cancel, or a cancel followed by a create
— and the two-call shape occurs only when the cancel succeeded, so a
place is never issued after a failed cancel; moreover a
non-UnknownOrder cancel failure aborts the pass with the store (hence
the stored handle) unchanged. -/
theorem claim_c6_cancel_before_place (store : Store) (cfg : OrderRec)
    (o : Oracle) :
    ((processOrderTry store cfg o).calls = [] ∨
     (∃ pr, (processOrderTry store cfg o).calls = [Call.create pr]) ∨
     (∃ b, (processOrderTry store cfg o).calls = [Call.cancel b]) ∨
     (∃ b pr, (processOrderTry store cfg o).calls = [Call.cancel b, Call.create pr]
        ∧ o.cancel_result = CancelRes.ok)) ∧
    (∀ bid p, ourOrderOf cfg o.open_orders = some (bid, p) →
      o.ema_price ≠ 0 →
      |p - o.ema_price| / o.ema_price > price_threshold →
      o.cancel_result = CancelRes.errOther →
      (processOrderTry store cfg o).store = store ∧
      (processOrderTry store cfg o).calls = [Call.cancel bid] ∧
      (processOrderTry store cfg o).result = PassResult.cancelFailed) := by
  constructor
  · rcases hour : ourOrderOf cfg o.open_orders with _ | ⟨bid, p⟩
    · rw [processOrderTry_eq_absent _ _ _ hour]
      unfold absentBranch createAttempt
      cases hb : cfg.binance_order_id with
      | some b =>
        dsimp only
        by_cases hst : o.order_status = some "FILLED"
        · rw [if_pos hst]
          exact Or.inl rfl
        · rw [if_neg hst]
          cases hc : o.create_result with
          | some nid => exact Or.inr (Or.inl ⟨_, rfl⟩)
          | none => exact Or.inr (Or.inl ⟨_, rfl⟩)
      | none =>
        dsimp only
        cases hc : o.create_result with
        | some nid => exact Or.inr (Or.inl ⟨_, rfl⟩)
        | none => exact Or.inr (Or.inl ⟨_, rfl⟩)
    · unfold processOrderTry
      rw [hour]
      dsimp only
      by_cases hema : o.ema_price = 0
      · rw [if_pos hema]
        unfold catchAllWith
        by_cases hn : cfg.notified_error = true
        · rw [if_pos hn]; exact Or.inl rfl
        · rw [if_neg hn]; exact Or.inl rfl
      · rw [if_neg hema]
        by_cases hgt : |p - o.ema_price| / o.ema_price > price_threshold
        · rw [if_pos hgt]
          unfold replaceBranch
          cases hcan : o.cancel_result with
          | ok =>
            dsimp only
            cases hc : o.create_result with
            | some nid =>
              dsimp only
              by_cases hp0 : p = 0
              · rw [if_pos hp0]
                unfold catchAllWith
                by_cases hn : cfg.notified_error = true
                · rw [if_pos hn]; exact Or.inr (Or.inr (Or.inr ⟨bid, _, rfl, rfl⟩))
                · rw [if_neg hn]; exact Or.inr (Or.inr (Or.inr ⟨bid, _, rfl, rfl⟩))
              · rw [if_neg hp0]
                exact Or.inr (Or.inr (Or.inr ⟨bid, _, rfl, rfl⟩))
            | none =>
              dsimp only
              exact Or.inr (Or.inr (Or.inr ⟨bid, _, rfl, rfl⟩))
          | errUnknown =>
            dsimp only
            by_cases hst : o.order_status = some "FILLED"
            · rw [if_pos hst]; exact Or.inr (Or.inr (Or.inl ⟨bid, rfl⟩))
            · rw [if_neg hst]; exact Or.inr (Or.inr (Or.inl ⟨bid, rfl⟩))
          | errOther =>
            dsimp only
            exact Or.inr (Or.inr (Or.inl ⟨bid, rfl⟩))
        · rw [if_neg hgt]
          exact Or.inl rfl
  · intro bid p hour hema hdiff hcan
    rw [processOrderTry_eq_replace store cfg o bid p hour hema hdiff]
    unfold replaceBranch
    rw [hcan]
    dsimp only
    exact ⟨rfl, rfl, rfl⟩

/-- Witness for C6: a concrete Replace pass whose cancel fails with a
generic error issues only the cancel and leaves the store untouched. -/
theorem claim_c6_witness :
    (processOrderTry [sampleRec (some 7) false] (sampleRec (some 7) false)
        oracleCancelOther).store = [sampleRec (some 7) false] ∧
    (processOrderTry [sampleRec (some 7) false] (sampleRec (some 7) false)
        oracleCancelOther).calls = [Call.cancel 7] ∧
    (processOrderTry [sampleRec (some 7) false] (sampleRec (some 7) false)
        oracleCancelOther).result = PassResult.cancelFailed :=
  (claim_c6_cancel_before_place [sampleRec (some 7) false]
    (sampleRec (some 7) false) oracleCancelOther).2 7 100 (by decide) (by decide)
    (by norm_num [oracleCancelOther, price_threshold]) rfl

/-- Counterexample to C8: with fewer closes than the period the EMA
computation does not signal — it returns the numeric sentinel 0.0 — and
the pass for an order bound to an open order is not skipped without
state change: the zero target makes the deviation computation divide by
zero, the catch-all emits a process-error notification and flips the
error-notified flag in the store. -/
theorem claim_c8_counterexample :
    calculate_ema [10] 3 = 0 ∧
    (processOrderTry [sampleRec (some 7) false] (sampleRec (some 7) false)
        oracleZeroEma).store ≠ [sampleRec (some 7) false] ∧
    (processOrderTry [sampleRec (some 7) false] (sampleRec (some 7) false)
        oracleZeroEma).notifs = [Notif.procError] := by
  refine ⟨?_, by decide, by decide⟩
  rw [calculate_ema, if_pos (by norm_num)]

/-- C8 as amended: with fewer than `period` closes `calculate_ema`
returns the 0.0 sentinel rather than signalling; the reconciliation pass
is not skipped — with a bound open order the zero target lands the pass
in the catch-all (one process-error notification, error flag set: a
state change), and with no bound order the pass attempts to place an
order at price 0. -/
theorem claim_c8_insufficient_data_sentinel (closes : List ℚ) (period : Nat)
    (store : Store) (cfg : OrderRec) (o : Oracle) (bid : Int) (p : ℚ)
    (hlen : closes.length < period)
    (hn : cfg.notified_error = false)
    (hour : ourOrderOf cfg o.open_orders = some (bid, p))
    (hema : o.ema_price = 0) :
    calculate_ema closes period = 0 ∧
    processOrderTry store cfg o
      = { store := set_notified store cfg.id true, calls := [],
          notifs := [Notif.procError], result := PassResult.error } ∧
    (∀ o2 : Oracle, ourOrderOf cfg o2.open_orders = none →
      o2.order_status ≠ some "FILLED" → o2.ema_price = 0 →
      (processOrderTry store cfg o2).calls = [Call.create 0]) := by
  refine ⟨?_, ?_, ?_⟩
  · rw [calculate_ema, if_pos hlen]
  · unfold processOrderTry
    rw [hour]
    dsimp only
    rw [if_pos hema]
    unfold catchAllWith
    simp [hn]
  · intro o2 hour2 hst2 hema2
    rw [processOrderTry_eq_absent _ _ _ hour2]
    unfold absentBranch createAttempt
    cases hb : cfg.binance_order_id with
    | some b =>
      dsimp only
      rw [if_neg hst2]
      cases hc : o2.create_result with
      | some nid => dsimp only; rw [hema2]
      | none => dsimp only; rw [hema2]
    | none =>
      dsimp only
      cases hc : o2.create_result with
      | some nid => dsimp only; rw [hema2]
      | none => dsimp only; rw [hema2]

/-- Witness for the amended C8: one close against period 3 yields the
sentinel, and the concrete bound-order pass with zero target lands in
the catch-all with a process-error notification. -/
theorem claim_c8_witness :
    calculate_ema [10] 3 = 0 ∧
    processOrderTry [sampleRec (some 7) false] (sampleRec (some 7) false)
        oracleZeroEma
      = { store := set_notified [sampleRec (some 7) false]
            (sampleRec (some 7) false).id true,
          calls := [], notifs := [Notif.procError],
          result := PassResult.error } := by
  have h := claim_c8_insufficient_data_sentinel [10] 3
    [sampleRec (some 7) false] (sampleRec (some 7) false) oracleZeroEma 7 100
    (by norm_num) rfl (by decide) rfl
  exact ⟨h.1, h.2.1⟩

/-- A rational with denominator one is the cast of its numerator. -/
theorem intCast_den_one (q : ℚ) (h : q.den = 1) : ((q.num : ℚ)) = q := by
  conv_rhs => rw [← Rat.num_div_den q]
  rw [h]
  simp

/-- Denominator-one rationals are closed under multiplication. -/
theorem den_one_mul (a b : ℚ) (ha : a.den = 1) (hb : b.den = 1) :
    (a * b).den = 1 := by
  rw [← intCast_den_one a ha, ← intCast_den_one b hb, ← Int.cast_mul]
  exact Rat.den_intCast _

/-- Round-half-to-even is the identity on integers. -/
theorem roundHalfEven_intCast (n : Int) : roundHalfEven ((n : ℚ)) = n := by
  simp only [roundHalfEven]
  rw [Int.floor_intCast, sub_self, if_pos (by norm_num)]

/-- Formatting is exact on values representable at the requested number
of digits. -/
theorem pyRound_exact (p : Nat) (x : ℚ) (h : (x * 10 ^ p).den = 1) :
    pyRound p x = x := by
  unfold pyRound
  rw [← intCast_den_one _ h, roundHalfEven_intCast, intCast_den_one _ h]
  exact mul_div_cancel_right₀ x (by positivity)

/-- Formatting zero gives zero at every precision. -/
theorem pyRound_zero (p : Nat) : pyRound p 0 = 0 := by
  have h0 : roundHalfEven 0 = 0 := by simpa using roundHalfEven_intCast 0
  unfold pyRound
  rw [zero_mul, h0]
  simp

/-- The denominator of the literal 1/100. -/
theorem den_one_div_hundred : (1/100 : ℚ).den = 100 := by
  have h : (1/100 : ℚ)
      = (⟨1, 100, by norm_num, by simpa using Nat.coprime_one_left 100⟩ : ℚ) := by
    rw [Rat.mk'_eq_divInt, Rat.divInt_eq_div]
    norm_num
  rw [h]

/-- The precision the source derives from the tick 0.01 is two digits
(fixed-point string "0.01"). -/
theorem tickPrecision_one_div_hundred : tickPrecision (1/100) = 2 := by
  rw [tickPrecision, if_neg (by norm_num), if_pos (by norm_num), decDigits,
    den_one_div_hundred]
  decide

/-- The literal 1/1000000 as a reduced fraction. -/
theorem one_div_million_eq :
    (1/1000000 : ℚ)
      = (⟨1, 1000000, by norm_num, by simpa using Nat.coprime_one_left 1000000⟩ : ℚ) := by
  rw [Rat.mk'_eq_divInt, Rat.divInt_eq_div]
  norm_num

/-- The tick 1e-06 prints in scientific notation with a one-digit
mantissa. -/
theorem sciMantissaDigits_one_div_million : sciMantissaDigits (1/1000000) = 1 := by
  rw [sciMantissaDigits, one_div_million_eq]
  decide

/-- The precision the source derives from the tick 1e-06 is five — the
length of the whole scientific-notation string '1e-06' — although the
tick needs six digits. -/
theorem tickPrecision_one_div_million : tickPrecision (1/1000000) = 5 := by
  rw [tickPrecision, if_neg (by norm_num), if_neg (by norm_num),
    sciMantissaDigits_one_div_million]
  decide

/-- Counterexample to C9, at two concrete inputs.  With the
(non-decimal) step 1.5 and raw value 1.6 the quantization returns 2: the
zero-digit formatting applied after the floor multiplication rounds 1.5
half-to-even up to 2, exceeding both floor(raw/step)·step = 1.5 and the
raw value.  With the genuine exchange tick 1e-06 and raw value 9.5e-06
it returns 1e-05 > raw: the precision derived from the scientific
string '1e-06' is 5, one digit short, so formatting rounds the floored
value 9e-06 up to 0.00001.  Quantization therefore does round up for
some positive steps, decimal ones included. -/
theorem claim_c9_counterexample :
    format_price (3/2) (8/5) = 2 ∧
    ¬(format_price (3/2) (8/5) ≤ 8/5) ∧
    (⌊((8:ℚ)/5) / (3/2)⌋ : ℚ) * (3/2) = 3/2 ∧
    format_price (1/1000000) (19/2000000) = 1/100000 ∧
    ¬(format_price (1/1000000) (19/2000000) ≤ 19/2000000) := by
  have hprec : tickPrecision (3/2) = 0 := by
    rw [tickPrecision, if_pos (by norm_num)]
  have hfloor : ⌊((8:ℚ)/5) / (3/2)⌋ = (1 : Int) := by
    rw [Int.floor_eq_iff]
    constructor <;> norm_num
  have hfloor32 : ⌊(3:ℚ)/2⌋ = (1 : Int) := by
    rw [Int.floor_eq_iff]
    constructor <;> norm_num
  have hrhe : roundHalfEven ((3:ℚ)/2) = 2 := by
    simp only [roundHalfEven]
    rw [hfloor32]
    norm_num
  have hval : format_price (3/2) (8/5) = 2 := by
    unfold format_price
    rw [hprec, hfloor]
    unfold pyRound
    rw [show ((1:Int):ℚ) * (3/2) * 10 ^ (0:Nat) = 3/2 by norm_num, hrhe]
    norm_num
  have hfloorM : ⌊((19:ℚ)/2000000) / (1/1000000)⌋ = (9 : Int) := by
    rw [Int.floor_eq_iff]
    constructor <;> norm_num
  have hfloor910 : ⌊(9:ℚ)/10⌋ = (0 : Int) := by
    rw [Int.floor_eq_iff]
    constructor <;> norm_num
  have hrheM : roundHalfEven ((9:ℚ)/10) = 1 := by
    simp only [roundHalfEven]
    rw [hfloor910]
    norm_num
  have hvalM : format_price (1/1000000) (19/2000000) = 1/100000 := by
    unfold format_price
    rw [tickPrecision_one_div_million, hfloorM]
    unfold pyRound
    rw [show ((9:Int):ℚ) * (1/1000000) * 10 ^ (5:Nat) = 9/10 by norm_num, hrheM]
    norm_num
  exact ⟨hval, by rw [hval]; norm_num, by rw [hfloor]; norm_num,
    hvalM, by rw [hvalM]; norm_num⟩

/-- C9 as amended: quantization returns floor(raw/step)·step exactly,
never rounds up, and maps zero to zero, identically on the price and
quantity paths, for every non-negative raw value and positive step that
is exactly representable at the precision the code derives from its
float string — that is, integer steps of one or more, decimal steps in
[1e-4, 1) up to their digit count, and the single-digit multiples of
1e-05 (where the five-character scientific tail happens to suffice).
Outside that domain the derived precision is too short and the trailing
formatting, which rounds half-to-even, can round up: step 1.5 (precision
0) turns raw 1.6 into 2, and the exchange tick 1e-06 (precision 5, from
the string '1e-06') turns raw 9.5e-06 into 1e-05. -/
theorem claim_c9_amended_quantize_floor (raw step : ℚ) (m : Int)
    (h0 : 0 ≤ raw) (hs : 0 < step)
    (hm : step * 10 ^ tickPrecision step = (m : ℚ)) :
    format_price step raw = (⌊raw / step⌋ : ℚ) * step ∧
    format_price step raw ≤ raw ∧
    format_quantity step raw = (⌊raw / step⌋ : ℚ) * step ∧
    format_price step 0 = 0 ∧
    format_quantity step 0 = 0 := by
  have hq : ((⌊raw / step⌋ : ℚ) * step * 10 ^ tickPrecision step).den = 1 := by
    rw [mul_assoc, hm]
    exact den_one_mul _ _ (Rat.den_intCast _) (Rat.den_intCast _)
  have hmain : format_price step raw = (⌊raw / step⌋ : ℚ) * step := by
    unfold format_price
    exact pyRound_exact _ _ hq
  have hle : (⌊raw / step⌋ : ℚ) * step ≤ raw :=
    calc (⌊raw / step⌋ : ℚ) * step
        ≤ (raw / step) * step := mul_le_mul_of_nonneg_right (Int.floor_le _) hs.le
      _ = raw := div_mul_cancel₀ raw (ne_of_gt hs)
  have hzp : format_price step 0 = 0 := by
    unfold format_price
    rw [zero_div, Int.floor_zero, Int.cast_zero, zero_mul]
    exact pyRound_zero _
  have hzq : format_quantity step 0 = 0 := by
    unfold format_quantity
    rw [zero_div, Int.floor_zero, Int.cast_zero, zero_mul]
    exact pyRound_zero _
  exact ⟨hmain, hmain ▸ hle, pyRound_exact _ _ hq, hzp, hzq⟩

/-- Witness for the amended C9: tick 0.01 against raw 100.127 quantizes
to exactly 100.12 without rounding up, and zero maps to zero on both
paths. -/
theorem claim_c9_witness :
    format_price (1/100) (100127/1000) = 2503/25 ∧
    format_price (1/100) (100127/1000) ≤ 100127/1000 ∧
    format_price (1/100) 0 = 0 ∧
    format_quantity (1/100) 0 = 0 := by
  have hm : (1/100 : ℚ) * 10 ^ tickPrecision (1/100) = ((1 : Int) : ℚ) := by
    rw [tickPrecision_one_div_hundred]
    norm_num
  have h := claim_c9_amended_quantize_floor (100127/1000) (1/100) 1
    (by norm_num) (by norm_num) hm
  have hfloor : ⌊((100127:ℚ)/1000) / (1/100)⌋ = (10012 : Int) := by
    rw [Int.floor_eq_iff]
    constructor <;> norm_num
  refine ⟨?_, h.2.1, h.2.2.2.1, h.2.2.2.2⟩
  rw [h.1, hfloor]
  norm_num

end EmaBot
